import Mathlib

set_option maxHeartbeats 1000000

/-!
Shallow embedding of `plugins/module_utils/proxmox_interfaces.py`:
the Proxmox network-interface reconciliation engine (field mapper,
reverse mapper, duplicate checker, diff engine), together with proofs
about its behaviour.
-/

/-- A Python primitive value as used by the interface engine: strings,
integers, booleans and `None`. -/
inductive PyVal where
  | str (s : String)
  | int (n : Int)
  | bool (b : Bool)
  | none
deriving DecidableEq, Repr

/-- Errors raised by the engine: `ValueError`, `KeyError` and plain
`Exception`, each carrying its message (for `KeyError`, the key). -/
inductive PyErr where
  | valueError (msg : String)
  | keyError (k : String)
  | exception (msg : String)
deriving DecidableEq, Repr

/-- A Python dict with string keys, in insertion order. -/
abbrev PyDict := List (String × PyVal)

/-- Python `d.get(k)`-style lookup: first entry with the key. -/
def dictGet (d : PyDict) (k : String) : Option PyVal :=
  (d.find? (fun p => p.1 == k)).map (fun p => p.2)

/-- Python `d[k]`: raises `KeyError` when the key is missing. -/
def getItem (d : PyDict) (k : String) : Except PyErr PyVal :=
  match dictGet d k with
  | some v => .ok v
  | Option.none => .error (.keyError k)

/-- Python `d[k] = v` for a key already present: replaces the first
occurrence in place, keeping the insertion position. -/
def dictSetFirst : PyDict → String → PyVal → PyDict
  | [], _, _ => []
  | (k', v') :: rest, k, v =>
      if k' = k then (k', v) :: rest else (k', v') :: dictSetFirst rest k v

/-- Python `==` on primitive values: `True == 1` and `False == 0` hold
(bool is an int subtype); values of unrelated types are unequal. -/
def pyEq : PyVal → PyVal → Bool
  | .none, .none => true
  | .str a, .str b => a == b
  | .int a, .int b => a == b
  | .bool a, .bool b => a == b
  | .bool a, .int b => (if a then (1 : Int) else 0) == b
  | .int a, .bool b => a == (if b then (1 : Int) else 0)
  | _, _ => false

/-- Python truthiness of a primitive value. -/
def pyTruthy : PyVal → Bool
  | .str s => s != ""
  | .int n => n != 0
  | .bool b => b
  | .none => false

/-- Python `str(v)` / `format` rendering of a primitive value. -/
def pyStr : PyVal → String
  | .str s => s
  | .int n => toString n
  | .bool b => if b then "True" else "False"
  | .none => "None"

/-- Python `int(v)`: identity on ints, 0/1 on bools, parse for strings,
error on `None`. -/
def pyIntOf : PyVal → Except PyErr Int
  | .int n => .ok n
  | .bool b => .ok (if b then 1 else 0)
  | .str s =>
      match s.toInt? with
      | some n => .ok n
      | Option.none => .error (.valueError ("invalid literal for int() with base 10: " ++ s))
  | .none => .error (.exception "int() argument must not be NoneType")

/-- Modelled from the spec: `proxmox_to_ansible_bool` is imported from
`plugins/module_utils/proxmox.py`, which is not among the provided
sources. Spec section 4.2: convert the designated boolean-encoded fields
from Proxmox's 0/1-style representation (int, or the strings used on the
wire) into a true boolean; re-mapping an already-boolean value is a
no-op. -/
def proxmox_to_ansible_bool : PyVal → PyVal
  | .bool b => .bool b
  | .int n => .bool (n == 1)
  | .str s => .bool (s == "1")
  | .none => .bool false

/-- One iteration of the loop in `proxmox_to_ansible_interface_args`:
`if k in ret: ret[k] = proxmox_to_ansible_bool(ret[k])`. -/
def mapBoolField (ret : PyDict) (k : String) : PyDict :=
  match dictGet ret k with
  | some v => dictSetFirst ret k (proxmox_to_ansible_bool v)
  | Option.none => ret

/-- Source lines 85-93: convert the `autostart` and `bridge_vlan_ports`
fields of a wire record to booleans, leaving everything else unchanged. -/
def proxmox_to_ansible_interface_args (params : PyDict) : PyDict :=
  ["autostart", "bridge_vlan_ports"].foldl mapBoolField params

/-- Pass-through field: the wire record receives the value unchanged. -/
def trPass (v : PyVal) : Except PyErr PyVal := .ok v

/-- Source line 103: `'1' if params['autostart'] else '0'`. -/
def trBoolStr (v : PyVal) : Except PyErr PyVal :=
  .ok (.str (if pyTruthy v then "1" else "0"))

/-- Source line 113: `1 if params['bridge_vlan_ports'] else 0`. -/
def trBoolInt (v : PyVal) : Except PyErr PyVal :=
  .ok (.int (if pyTruthy v then 1 else 0))

/-- Source lines 124-129: `mtu` must lie in [1280, 65520], else
`ValueError`; in range the original value is kept. -/
def trMtu (v : PyVal) : Except PyErr PyVal := do
  let n ← pyIntOf v
  if n ≤ 65520 ∧ n ≥ 1280 then
    .ok v
  else
    .error (.valueError ("MTU has to be be between 1280 and 65520 but was " ++ pyStr v))

/-- Source lines 138-143: `ovs_tag` must lie in [1, 4094], else
`ValueError`. -/
def trOvsTag (v : PyVal) : Except PyErr PyVal := do
  let n ← pyIntOf v
  if n ≥ 1 ∧ n ≤ 4094 then
    .ok v
  else
    .error (.valueError ("ovs_tag has to be between 1 and 4094 but was " ++ pyStr v))

/-- Source lines 146-151: `vlan_id` must lie in [1, 4094], else a plain
`Exception` (note: not a `ValueError`, unlike `mtu` and `ovs_tag`). -/
def trVlanId (v : PyVal) : Except PyErr PyVal := do
  let n ← pyIntOf v
  if n ≥ 1 ∧ n ≤ 4094 then
    .ok v
  else
    .error (.exception ("vlan_id has to be between 1 and 4094 but was " ++ pyStr v))

/-- The field table of `proxmox_map_interface_args` (source lines 96-154),
one row per `if params[...] is not None` block, in source order:
(source key, wire key, value transform). -/
def fieldSpecs : List (String × String × (PyVal → Except PyErr PyVal)) :=
  [("name", "iface", trPass),
   ("type", "type", trPass),
   ("autostart", "autostart", trBoolStr),
   ("bond_primary", "bond-primary", trPass),
   ("bond_mode", "bond_mode", trPass),
   ("bond_xmit_hash_policy", "bond_xmit_hash_policy", trPass),
   ("bridge_ports", "bridge_ports", trPass),
   ("bridge_vlan_ports", "bridge_vlan_ports", trBoolInt),
   ("cidr", "cidr", trPass),
   ("cidr6", "cidr6", trPass),
   ("gateway", "gateway", trPass),
   ("gateway6", "gateway6", trPass),
   ("comments", "comments", trPass),
   ("mtu", "mtu", trMtu),
   ("ovs_bonds", "ovs_bonds", trPass),
   ("ovs_options", "ovs_options", trPass),
   ("ovs_bridge", "ovs_bridge", trPass),
   ("ovs_ports", "ovs_ports", trPass),
   ("ovs_tag", "ovs_tag", trOvsTag),
   ("slaves", "slaves", trPass),
   ("vlan_id", "vlan-id", trVlanId),
   ("vlan_raw_device", "vlan-raw-device", trPass)]

/-- One block of `proxmox_map_interface_args`: read the source key
(`KeyError` when missing), skip when `None`, otherwise transform and
append under the wire key. -/
def mapStep (params : PyDict) (ret : PyDict)
    (s : String × String × (PyVal → Except PyErr PyVal)) : Except PyErr PyDict := do
  let v ← getItem params s.1
  if v = PyVal.none then
    return ret
  else do
    let w ← s.2.2 v
    return ret ++ [(s.2.1, w)]

/-- Source lines 96-154: translate a declaration record into the Proxmox
wire record, block by block in source order. -/
def proxmox_map_interface_args (params : PyDict) : Except PyErr PyDict :=
  fieldSpecs.foldlM (mapStep params) []

/-- The wire keys whose source attribute is present and non-null in
`params` — the keys `proxmox_map_interface_args` emits, in order. -/
def setKeys (params : PyDict) : List String :=
  fieldSpecs.filterMap (fun s =>
    match getItem params s.1 with
    | .ok v => if v = PyVal.none then Option.none else some s.2.1
    | .error _ => Option.none)

/-- Python `s.strip('\n')`: remove newline characters from both ends of
the string (leading and trailing). -/
def stripNL (s : String) : String :=
  ⟨((s.data.dropWhile (fun c => c = '\n')).reverse.dropWhile (fun c => c = '\n')).reverse⟩

/-- Source lines 290-291 of `get_diff_single_nic`: read the declaration's
`comments` entry (`KeyError` when missing); when it is a non-`None`
string, replace it by the stripped value plus exactly one newline. -/
def normalize_comments (new : PyDict) : Except PyErr PyDict := do
  let cv ← getItem new "comments"
  match cv with
  | PyVal.none => .ok new
  | .str s => .ok (dictSetFirst new "comments" (.str (stripNL s ++ "\n")))
  | _ => .error (.exception "AttributeError: object has no attribute strip")

/-- One per-field before/after pair of a field-level diff. -/
structure FieldDiff where
  before : PyVal
  after : PyVal
deriving DecidableEq, Repr

/-- Source lines 292-298: the per-field entries of the diff between a
declaration and a current record — every key of the declaration whose
value is non-`None`, exists in the current record, and differs from it
under Python equality. -/
def diffEntries (new old : PyDict) : List (String × FieldDiff) :=
  (new.map Prod.fst).filterMap (fun k =>
    match dictGet new k with
    | some v =>
        if v = PyVal.none then Option.none
        else
          match dictGet old k with
          | some ov => if pyEq v ov then Option.none else some (k, ⟨ov, v⟩)
          | Option.none => Option.none
    | Option.none => Option.none)

/-- Source lines 288-301: `get_diff_single_nic(new, old)` — normalize the
comments of `new` in place, collect the per-field diff entries, and
return them when non-empty, `None` otherwise. -/
def get_diff_single_nic (new old : PyDict) : Except PyErr (Option (List (String × FieldDiff))) := do
  let new_n ← normalize_comments new
  let ret := diffEntries new_n old
  if ret.length > 0 then return (some ret) else return Option.none

/-- The change record stored per interface name by `get_config_diff`:
`{'before': <record>, 'after': 'absent'}` for a deletion,
`{'before': '', 'after': <mapped record>}` for a creation, and the
per-field diff map for an update. -/
inductive Change where
  | delete (before : PyDict)
  | create (after : PyDict)
  | update (fields : List (String × FieldDiff))
deriving DecidableEq, Repr

/-- Association list keyed by Python values, compared with Python `==`
(the dict key semantics used for `existing_nics` and `ret`). -/
abbrev PyKeyed (α : Type) := List (PyVal × α)

/-- Lookup in a `PyVal`-keyed dict. -/
def alistGet {α : Type} (l : PyKeyed α) (k : PyVal) : Option α :=
  (l.find? (fun p => pyEq p.1 k)).map (fun p => p.2)

/-- Assignment in a `PyVal`-keyed dict: replace the first matching key in
place, append when absent. -/
def alistSet {α : Type} : PyKeyed α → PyVal → α → PyKeyed α
  | [], k, v => [(k, v)]
  | (k', v') :: rest, k, v =>
      if pyEq k' k then (k', v) :: rest else (k', v') :: alistSet rest k v

/-- Source lines 257-261: index the current interface records by their
`iface` value, reverse-mapping the boolean fields of each record. -/
def buildExisting : List PyDict → PyKeyed PyDict → Except PyErr (PyKeyed PyDict)
  | [], acc => .ok acc
  | nic :: rest, acc => do
      let iface ← getItem nic "iface"
      buildExisting rest (alistSet acc iface (proxmox_to_ansible_interface_args nic))

/-- Source lines 263-277: the main loop of `get_config_diff`, one desired
declaration at a time. Reads `name`, runs the field mapper, then
branches on `state == 'absent'` (unconditional `current_nics[name]`
lookup — `KeyError` when absent), membership (creation), or the
field-level diff (update, entry only when non-empty). -/
def diffLoop (existing : PyKeyed PyDict) :
    List PyDict → PyKeyed Change → Except PyErr (PyKeyed Change)
  | [], ret => .ok ret
  | nic :: rest, ret => do
      let name ← getItem nic "name"
      let mapped ← proxmox_map_interface_args nic
      let state ← getItem nic "state"
      if pyEq state (.str "absent") then
        match alistGet existing name with
        | some cur => diffLoop existing rest (alistSet ret name (.delete cur))
        | Option.none => .error (.keyError (pyStr name))
      else if (alistGet existing name).isNone then
        diffLoop existing rest (alistSet ret name (.create mapped))
      else do
        let d ← get_diff_single_nic nic ((alistGet existing name).getD [])
        match d with
        | some fd => diffLoop existing rest (alistSet ret name (.update fd))
        | Option.none => diffLoop existing rest ret

/-- Source lines 255-280: `get_config_diff(current_nics, updated_nics)` —
index and reverse-map the current records, process every desired
declaration, and return the accumulated change map when non-empty,
`None` otherwise. -/
def get_config_diff (current_nics updated_nics : List PyDict) :
    Except PyErr (Option (PyKeyed Change)) := do
  let existing ← buildExisting current_nics []
  let ret ← diffLoop existing updated_nics []
  if ret.length > 0 then return (some ret) else return Option.none

/-- The scan of `check_doublicates` (source lines 247-252): walk the
names in order with the set of already-seen names, reporting the first
name already seen. -/
def findFirstDup : List PyVal → List PyVal → Option PyVal
  | [], _ => Option.none
  | x :: rest, seen =>
      if seen.any (fun y => pyEq x y) then some x else findFirstDup rest (x :: seen)

/-- Source lines 243-252: `check_doublicates` — read every declaration's
`name` (list comprehension, `KeyError` when missing), then fail with the
module error message at the first duplicated name, succeeding silently
(`None`) when all names are distinct. -/
def check_doublicates (config : List PyDict) : Except PyErr (Option String) := do
  let ifaces ← config.mapM (fun nic => getItem nic "name")
  match findFirstDup ifaces [] with
  | some iface =>
      return (some ("Interface " ++ pyStr iface ++ " can only be present once in list"))
  | Option.none => return Option.none

/-- A full Ansible-validated declaration record: all 22 mapper keys plus
`state`, with the commonly exercised slots as parameters and every other
attribute `None`. -/
def declParams (name type autostart bvp cidr comments mtu ovs_tag vlan_id state : PyVal) :
    PyDict :=
  [("name", name),
   ("type", type),
   ("autostart", autostart),
   ("bond_primary", PyVal.none),
   ("bond_mode", PyVal.none),
   ("bond_xmit_hash_policy", PyVal.none),
   ("bridge_ports", PyVal.none),
   ("bridge_vlan_ports", bvp),
   ("cidr", cidr),
   ("cidr6", PyVal.none),
   ("gateway", PyVal.none),
   ("gateway6", PyVal.none),
   ("comments", comments),
   ("mtu", mtu),
   ("ovs_bonds", PyVal.none),
   ("ovs_options", PyVal.none),
   ("ovs_bridge", PyVal.none),
   ("ovs_ports", PyVal.none),
   ("ovs_tag", ovs_tag),
   ("slaves", PyVal.none),
   ("vlan_id", vlan_id),
   ("vlan_raw_device", PyVal.none),
   ("state", state)]

/-- The same record without its `state` entry: the plain 22-key parameter
record read by the field mapper. -/
def mapperParams (name type autostart bvp cidr comments mtu ovs_tag vlan_id : PyVal) :
    PyDict :=
  (declParams name type autostart bvp cidr comments mtu ovs_tag vlan_id PyVal.none).dropLast

/-- Python `del d[k]` / a record built without the key `k`: every entry
with that key removed. -/
def removeKey (d : PyDict) (k : String) : PyDict :=
  d.filter (fun p => p.1 ≠ k)

/-- Modelled from the spec claim's wording, for comparison with the code:
remove only TRAILING newline characters of a string. -/
def stripTrailingNLspec (s : String) : String :=
  ⟨(s.data.reverse.dropWhile (fun c => c = '\n')).reverse⟩

/-- The list of the 22 source keys the field mapper reads, in read order. -/
def mapperKeys : List String := fieldSpecs.map (fun s => s.1)

/-- Discriminator: is this error a Python `ValueError`? -/
def isValueError : PyErr → Bool
  | .valueError _ => true
  | _ => false

/-- Discriminator: did the mapper return normally? -/
def isOkExcept : Except PyErr PyDict → Bool
  | .ok _ => true
  | .error _ => false

theorem ok_bind {α β : Type} (a : α) (f : α → Except PyErr β) :
    (Except.ok a >>= f) = f a := rfl

theorem error_bind {α β : Type} (e : PyErr) (f : α → Except PyErr β) :
    ((Except.error e : Except PyErr α) >>= f) = Except.error e := rfl

/-- C1: the code evaluated on both halves of the claim. With a matching
current entry, `state: absent` yields `{before: current record (reverse
mapped), after: absent}` as the claim states; with no matching current
entry, `get_config_diff` raises `KeyError` on the unconditional
`current_nics[name]` lookup instead of succeeding as a no-op. -/
theorem C1_absent_branch_evaluation :
    get_config_diff [[("iface", PyVal.str "vmbr0"), ("autostart", PyVal.int 1)]]
        [declParams (.str "vmbr0") PyVal.none PyVal.none PyVal.none PyVal.none PyVal.none
          PyVal.none PyVal.none PyVal.none (.str "absent")]
      = .ok (some [(PyVal.str "vmbr0",
          Change.delete [("iface", PyVal.str "vmbr0"), ("autostart", PyVal.bool true)])])
    ∧ get_config_diff []
        [declParams (.str "vmbr0") PyVal.none PyVal.none PyVal.none PyVal.none PyVal.none
          PyVal.none PyVal.none PyVal.none (.str "absent")]
      = .error (.keyError "vmbr0") :=
  ⟨rfl, rfl⟩

/-- C2 counterexample: for the declaration `{name: vmbr0, autostart:
true, state: present}` against the current record `{iface: vmbr0,
autostart: 1}`, the mapped declaration `FieldMapper(d)` carries
`autostart = "1"`, the (reverse-mapped) current record carries
`autostart = True`, and the two differ under Python equality — so a diff
between `FieldMapper(d)` and the current record would report a change —
yet `get_config_diff` returns `None`: the code diffs the raw declaration,
not the mapped one. -/
theorem C2_mapped_diff_counterexample :
    proxmox_map_interface_args
        (declParams (.str "vmbr0") PyVal.none (.bool true) PyVal.none PyVal.none PyVal.none
          PyVal.none PyVal.none PyVal.none (.str "present"))
      = .ok [("iface", PyVal.str "vmbr0"), ("autostart", PyVal.str "1")]
    ∧ buildExisting [[("iface", PyVal.str "vmbr0"), ("autostart", PyVal.int 1)]] []
      = .ok [(PyVal.str "vmbr0", [("iface", PyVal.str "vmbr0"), ("autostart", PyVal.bool true)])]
    ∧ pyEq (PyVal.str "1") (PyVal.bool true) = false
    ∧ get_config_diff [[("iface", PyVal.str "vmbr0"), ("autostart", PyVal.int 1)]]
        [declParams (.str "vmbr0") PyVal.none (.bool true) PyVal.none PyVal.none PyVal.none
          PyVal.none PyVal.none PyVal.none (.str "present")]
      = .ok Option.none :=
  ⟨rfl, rfl, rfl, rfl⟩

/-- C3 counterexample: on the claim's own scenario the creation path
emits the `comments` value unchanged (`"x"`), not with a trailing
newline appended (`"x\n"`): the comments normalization only runs in the
field-level-diff path, never in the creation path. -/
theorem C3_creation_comments_counterexample :
    get_config_diff []
        [declParams (.str "vmbr0") PyVal.none PyVal.none PyVal.none (.str "192.168.0.1/24")
          (.str "x") PyVal.none PyVal.none PyVal.none (.str "present")]
      = .ok (some [(PyVal.str "vmbr0",
          Change.create [("iface", PyVal.str "vmbr0"), ("cidr", PyVal.str "192.168.0.1/24"),
            ("comments", PyVal.str "x")])])
    ∧ PyVal.str "x" ≠ PyVal.str "x\n" :=
  ⟨rfl, by decide⟩

/-- C4 counterexample: for a declaration whose `comments` is `"\nx"`
against a current record whose `comments` is `"\nx"`, the code records
the after-value `"x\n"` — Python's `strip('\n')` removes the LEADING
newline too — whereas the claim's normalization (trailing newlines
removed, one appended) would give `"\nx\n"`; the two disagree. -/
theorem C4_strip_counterexample :
    get_diff_single_nic
        (declParams (.str "vmbr0") PyVal.none PyVal.none PyVal.none PyVal.none (.str "\nx")
          PyVal.none PyVal.none PyVal.none (.str "present"))
        [("comments", PyVal.str "\nx")]
      = .ok (some [("comments", ⟨PyVal.str "\nx", PyVal.str "x\n"⟩)])
    ∧ stripNL "\nx" ++ "\n" = "x\n"
    ∧ stripTrailingNLspec "\nx" ++ "\n" = "\nx\n"
    ∧ ("x\n" : String) ≠ "\nx\n" :=
  ⟨rfl, rfl, rfl, by decide⟩

/-- C5 counterexample: an out-of-range `vlan_id` makes the field mapper
fail with a plain `Exception`, not a `ValueError` — the claim's "fails
with a value error" does not hold for `vlan_id`. -/
theorem C5_vlan_id_exception_counterexample :
    proxmox_map_interface_args
        (mapperParams PyVal.none PyVal.none PyVal.none PyVal.none PyVal.none PyVal.none
          PyVal.none PyVal.none (.int 5000))
      = .error (.exception "vlan_id has to be between 1 and 4094 but was 5000")
    ∧ isValueError (PyErr.exception "vlan_id has to be between 1 and 4094 but was 5000")
      = false :=
  ⟨rfl, rfl⟩

/-- C10 counterexample: a record containing every declared key does NOT
always return normally — with `mtu = 100` (present and non-null but out
of range) the mapper raises `ValueError`, so "for every input record
containing all of these keys it returns normally" fails. -/
theorem C10_total_record_counterexample :
    proxmox_map_interface_args
        (mapperParams PyVal.none PyVal.none PyVal.none PyVal.none PyVal.none PyVal.none
          (.int 100) PyVal.none PyVal.none)
      = .error (.valueError "MTU has to be be between 1280 and 65520 but was 100")
    ∧ isOkExcept (proxmox_map_interface_args
        (mapperParams PyVal.none PyVal.none PyVal.none PyVal.none PyVal.none PyVal.none
          (.int 100) PyVal.none PyVal.none))
      = false :=
  ⟨rfl, rfl⟩

/-- C10 amended: the mapper's domain is records carrying all 22 declared
keys. With every key present and all values null it returns normally
(the empty wire record); and for each declared key, the record missing
exactly that key (all others null) fails with a `KeyError` naming it —
a missing key is never treated as merely unset. -/
theorem C10_amended_key_totality :
    proxmox_map_interface_args
        (mapperParams PyVal.none PyVal.none PyVal.none PyVal.none PyVal.none PyVal.none
          PyVal.none PyVal.none PyVal.none)
      = .ok []
    ∧ (mapperKeys.all (fun k =>
        match proxmox_map_interface_args
            (removeKey
              (mapperParams PyVal.none PyVal.none PyVal.none PyVal.none PyVal.none PyVal.none
                PyVal.none PyVal.none PyVal.none) k) with
        | .error (.keyError k') => k' == k
        | _ => false)) = true :=
  ⟨rfl, rfl⟩

theorem pure_def {α : Type} (a : α) : (pure a : Except PyErr α) = .ok a := rfl

theorem map_error {α β : Type} (f : α → β) (e : PyErr) :
    (f <$> (Except.error e : Except PyErr α)) = .error e := rfl

theorem map_ok {α β : Type} (f : α → β) (a : α) :
    (f <$> (Except.ok a : Except PyErr α)) = .ok (f a) := rfl

theorem int_ne_none (n : Int) : (PyVal.int n = PyVal.none) = False := by
  simp only [eq_iff_iff, iff_false]
  exact fun h => PyVal.noConfusion h

theorem str_ne_none (s : String) : (PyVal.str s = PyVal.none) = False := by
  simp only [eq_iff_iff, iff_false]
  exact fun h => PyVal.noConfusion h

theorem bool_ne_none (b : Bool) : (PyVal.bool b = PyVal.none) = False := by
  simp only [eq_iff_iff, iff_false]
  exact fun h => PyVal.noConfusion h

/-- C5 amended: range validation of the field mapper on a declaration
whose only set attribute is the one under test. A set `mtu` outside
[1280, 65520] fails with `ValueError`, inside the range the wire record
carries it unchanged; a set `ovs_tag` outside [1, 4094] fails with
`ValueError`, inside it passes through; a set `vlan_id` outside
[1, 4094] fails with a plain `Exception` (not a `ValueError`), inside it
passes through under the key `vlan-id`. Each failure message carries the
field and the offending value, and a failure yields no wire record (the
result is an error, not a record). -/
theorem C5_amended_range_validation (n : Int) :
    (¬(1280 ≤ n ∧ n ≤ 65520) →
      proxmox_map_interface_args
          (mapperParams PyVal.none PyVal.none PyVal.none PyVal.none PyVal.none PyVal.none
            (.int n) PyVal.none PyVal.none)
        = .error (.valueError ("MTU has to be be between 1280 and 65520 but was " ++ toString n)))
    ∧ (1280 ≤ n ∧ n ≤ 65520 →
      proxmox_map_interface_args
          (mapperParams PyVal.none PyVal.none PyVal.none PyVal.none PyVal.none PyVal.none
            (.int n) PyVal.none PyVal.none)
        = .ok [("mtu", PyVal.int n)])
    ∧ (¬(1 ≤ n ∧ n ≤ 4094) →
      proxmox_map_interface_args
          (mapperParams PyVal.none PyVal.none PyVal.none PyVal.none PyVal.none PyVal.none
            PyVal.none (.int n) PyVal.none)
        = .error (.valueError ("ovs_tag has to be between 1 and 4094 but was " ++ toString n)))
    ∧ (1 ≤ n ∧ n ≤ 4094 →
      proxmox_map_interface_args
          (mapperParams PyVal.none PyVal.none PyVal.none PyVal.none PyVal.none PyVal.none
            PyVal.none (.int n) PyVal.none)
        = .ok [("ovs_tag", PyVal.int n)])
    ∧ (¬(1 ≤ n ∧ n ≤ 4094) →
      proxmox_map_interface_args
          (mapperParams PyVal.none PyVal.none PyVal.none PyVal.none PyVal.none PyVal.none
            PyVal.none PyVal.none (.int n))
        = .error (.exception ("vlan_id has to be between 1 and 4094 but was " ++ toString n)))
    ∧ (1 ≤ n ∧ n ≤ 4094 →
      proxmox_map_interface_args
          (mapperParams PyVal.none PyVal.none PyVal.none PyVal.none PyVal.none PyVal.none
            PyVal.none PyVal.none (.int n))
        = .ok [("vlan-id", PyVal.int n)]) := by
  refine ⟨fun h => ?_, fun h => ?_, fun h => ?_, fun h => ?_, fun h => ?_, fun h => ?_⟩
  · have htr : trMtu (PyVal.int n)
        = .error (.valueError ("MTU has to be be between 1280 and 65520 but was " ++ toString n)) := by
      unfold trMtu pyIntOf
      simp only [ok_bind]
      rw [if_neg (fun hc => h ⟨hc.2, hc.1⟩)]
      rfl
    simp only [proxmox_map_interface_args, fieldSpecs, mapperParams, declParams, mapStep,
      getItem, dictGet, List.foldlM, List.dropLast, List.find?, List.map]
    simp [ok_bind, pure_def, int_ne_none, htr, map_error, error_bind]
  · have htr : trMtu (PyVal.int n) = .ok (PyVal.int n) := by
      unfold trMtu pyIntOf
      simp only [ok_bind]
      rw [if_pos ⟨h.2, h.1⟩]
    simp only [proxmox_map_interface_args, fieldSpecs, mapperParams, declParams, mapStep,
      getItem, dictGet, List.foldlM, List.dropLast, List.find?, List.map]
    simp [ok_bind, pure_def, int_ne_none, htr, map_ok, error_bind]
  · have htr : trOvsTag (PyVal.int n)
        = .error (.valueError ("ovs_tag has to be between 1 and 4094 but was " ++ toString n)) := by
      unfold trOvsTag pyIntOf
      simp only [ok_bind]
      rw [if_neg (fun hc => h ⟨hc.1, hc.2⟩)]
      rfl
    simp only [proxmox_map_interface_args, fieldSpecs, mapperParams, declParams, mapStep,
      getItem, dictGet, List.foldlM, List.dropLast, List.find?, List.map]
    simp [ok_bind, pure_def, int_ne_none, htr, map_error, error_bind]
  · have htr : trOvsTag (PyVal.int n) = .ok (PyVal.int n) := by
      unfold trOvsTag pyIntOf
      simp only [ok_bind]
      rw [if_pos ⟨h.1, h.2⟩]
    simp only [proxmox_map_interface_args, fieldSpecs, mapperParams, declParams, mapStep,
      getItem, dictGet, List.foldlM, List.dropLast, List.find?, List.map]
    simp [ok_bind, pure_def, int_ne_none, htr, map_ok, error_bind]
  · have htr : trVlanId (PyVal.int n)
        = .error (.exception ("vlan_id has to be between 1 and 4094 but was " ++ toString n)) := by
      unfold trVlanId pyIntOf
      simp only [ok_bind]
      rw [if_neg (fun hc => h ⟨hc.1, hc.2⟩)]
      rfl
    simp only [proxmox_map_interface_args, fieldSpecs, mapperParams, declParams, mapStep,
      getItem, dictGet, List.foldlM, List.dropLast, List.find?, List.map]
    simp [ok_bind, pure_def, int_ne_none, htr, map_error, error_bind]
  · have htr : trVlanId (PyVal.int n) = .ok (PyVal.int n) := by
      unfold trVlanId pyIntOf
      simp only [ok_bind]
      rw [if_pos ⟨h.1, h.2⟩]
    simp only [proxmox_map_interface_args, fieldSpecs, mapperParams, declParams, mapStep,
      getItem, dictGet, List.foldlM, List.dropLast, List.find?, List.map]
    simp [ok_bind, pure_def, int_ne_none, htr, map_ok, error_bind]

/-- Witness for C5: the amended theorem applied at the concrete values
100 (out of range for all three fields) and 2000 (in range for all
three). -/
theorem C5_amended_range_validation_witness :
    proxmox_map_interface_args
        (mapperParams PyVal.none PyVal.none PyVal.none PyVal.none PyVal.none PyVal.none
          (.int 100) PyVal.none PyVal.none)
      = .error (.valueError "MTU has to be be between 1280 and 65520 but was 100")
    ∧ proxmox_map_interface_args
        (mapperParams PyVal.none PyVal.none PyVal.none PyVal.none PyVal.none PyVal.none
          (.int 2000) PyVal.none PyVal.none)
      = .ok [("mtu", PyVal.int 2000)]
    ∧ proxmox_map_interface_args
        (mapperParams PyVal.none PyVal.none PyVal.none PyVal.none PyVal.none PyVal.none
          PyVal.none (.int 5000) PyVal.none)
      = .error (.valueError "ovs_tag has to be between 1 and 4094 but was 5000")
    ∧ proxmox_map_interface_args
        (mapperParams PyVal.none PyVal.none PyVal.none PyVal.none PyVal.none PyVal.none
          PyVal.none (.int 2000) PyVal.none)
      = .ok [("ovs_tag", PyVal.int 2000)]
    ∧ proxmox_map_interface_args
        (mapperParams PyVal.none PyVal.none PyVal.none PyVal.none PyVal.none PyVal.none
          PyVal.none PyVal.none (.int 5000))
      = .error (.exception "vlan_id has to be between 1 and 4094 but was 5000")
    ∧ proxmox_map_interface_args
        (mapperParams PyVal.none PyVal.none PyVal.none PyVal.none PyVal.none PyVal.none
          PyVal.none PyVal.none (.int 2000))
      = .ok [("vlan-id", PyVal.int 2000)] :=
  ⟨(C5_amended_range_validation 100).1 (by decide),
   (C5_amended_range_validation 2000).2.1 (by decide),
   (C5_amended_range_validation 5000).2.2.1 (by decide),
   (C5_amended_range_validation 2000).2.2.2.1 (by decide),
   (C5_amended_range_validation 5000).2.2.2.2.1 (by decide),
   (C5_amended_range_validation 2000).2.2.2.2.2 (by decide)⟩

theorem proxmox_to_ansible_bool_idem (v : PyVal) :
    proxmox_to_ansible_bool (proxmox_to_ansible_bool v) = proxmox_to_ansible_bool v := by
  cases v <;> rfl

theorem dictGet_setFirst_self (d : PyDict) (k : String) (v : PyVal) :
    dictGet (dictSetFirst d k v) k = (dictGet d k).map (fun _ => v) := by
  induction d with
  | nil => rfl
  | cons p rest ih =>
    obtain ⟨k', v'⟩ := p
    by_cases h : k' = k
    · subst h
      simp [dictSetFirst, dictGet, List.find?]
    · have hb : (k' == k) = false := by simp [h]
      simp [dictSetFirst, dictGet, List.find?, h, hb] at ih ⊢
      exact ih

theorem dictGet_setFirst_ne (d : PyDict) (k k' : String) (v : PyVal) (h : k ≠ k') :
    dictGet (dictSetFirst d k v) k' = dictGet d k' := by
  induction d with
  | nil => rfl
  | cons p rest ih =>
    obtain ⟨k0, v0⟩ := p
    by_cases h0 : k0 = k
    · subst h0
      have hb : (k0 == k') = false := by simp [h]
      simp [dictSetFirst, dictGet, List.find?, hb]
    · by_cases h1 : k0 = k'
      · subst h1
        simp [dictSetFirst, dictGet, List.find?, h0]
      · have hb : (k0 == k') = false := by simp [h1]
        simp [dictSetFirst, dictGet, List.find?, h0, hb] at ih ⊢
        exact ih

theorem setFirst_setFirst (d : PyDict) (k : String) (v w : PyVal) :
    dictSetFirst (dictSetFirst d k v) k w = dictSetFirst d k w := by
  induction d with
  | nil => rfl
  | cons p rest ih =>
    obtain ⟨k0, v0⟩ := p
    by_cases h0 : k0 = k
    · simp [dictSetFirst, h0]
    · simp [dictSetFirst, h0, ih]

theorem setFirst_comm (d : PyDict) (k k' : String) (v w : PyVal) (h : k ≠ k') :
    dictSetFirst (dictSetFirst d k v) k' w = dictSetFirst (dictSetFirst d k' w) k v := by
  induction d with
  | nil => simp [dictSetFirst, h, Ne.symm h]
  | cons p rest ih =>
    obtain ⟨k0, v0⟩ := p
    by_cases h0 : k0 = k
    · subst h0
      simp [dictSetFirst, h, Ne.symm h]
    · by_cases h1 : k0 = k'
      · subst h1
        simp [dictSetFirst, h0, Ne.symm h0]
      · simp [dictSetFirst, h0, h1, ih]

theorem mapBoolField_eq_none (d : PyDict) (k : String) (hg : dictGet d k = Option.none) :
    mapBoolField d k = d := by
  unfold mapBoolField
  rw [hg]

theorem mapBoolField_eq_some (d : PyDict) (k : String) (v : PyVal)
    (hg : dictGet d k = some v) :
    mapBoolField d k = dictSetFirst d k (proxmox_to_ansible_bool v) := by
  unfold mapBoolField
  rw [hg]

theorem mapBoolField_get_ne (d : PyDict) (k k' : String) (h : k ≠ k') :
    dictGet (mapBoolField d k) k' = dictGet d k' := by
  cases hg : dictGet d k with
  | none => rw [mapBoolField_eq_none d k hg]
  | some v =>
    rw [mapBoolField_eq_some d k v hg]
    exact dictGet_setFirst_ne d k k' (proxmox_to_ansible_bool v) h

theorem mapBoolField_idem (d : PyDict) (k : String) :
    mapBoolField (mapBoolField d k) k = mapBoolField d k := by
  cases hg : dictGet d k with
  | none => rw [mapBoolField_eq_none d k hg, mapBoolField_eq_none d k hg]
  | some v =>
    rw [mapBoolField_eq_some d k v hg]
    have hg2 : dictGet (dictSetFirst d k (proxmox_to_ansible_bool v)) k
        = some (proxmox_to_ansible_bool v) := by
      rw [dictGet_setFirst_self, hg]
      rfl
    rw [mapBoolField_eq_some _ k _ hg2, setFirst_setFirst, proxmox_to_ansible_bool_idem]

theorem mapBoolField_comm (d : PyDict) (k k' : String) (h : k ≠ k') :
    mapBoolField (mapBoolField d k) k' = mapBoolField (mapBoolField d k') k := by
  cases hg : dictGet d k with
  | none =>
    cases hg' : dictGet d k' with
    | none =>
      rw [mapBoolField_eq_none d k hg, mapBoolField_eq_none d k' hg',
        mapBoolField_eq_none d k hg]
    | some v' =>
      rw [mapBoolField_eq_none d k hg, mapBoolField_eq_some d k' v' hg']
      have hk : dictGet (dictSetFirst d k' (proxmox_to_ansible_bool v')) k = Option.none := by
        rw [dictGet_setFirst_ne d k' k _ (Ne.symm h), hg]
      rw [mapBoolField_eq_none _ k hk]
  | some v =>
    cases hg' : dictGet d k' with
    | none =>
      rw [mapBoolField_eq_some d k v hg, mapBoolField_eq_none d k' hg']
      have hk : dictGet (dictSetFirst d k (proxmox_to_ansible_bool v)) k' = Option.none := by
        rw [dictGet_setFirst_ne d k k' _ h, hg']
      rw [mapBoolField_eq_none _ k' hk, mapBoolField_eq_some d k v hg]
    | some v' =>
      rw [mapBoolField_eq_some d k v hg, mapBoolField_eq_some d k' v' hg']
      have h1 : dictGet (dictSetFirst d k (proxmox_to_ansible_bool v)) k' = some v' := by
        rw [dictGet_setFirst_ne d k k' _ h, hg']
      have h2 : dictGet (dictSetFirst d k' (proxmox_to_ansible_bool v')) k = some v := by
        rw [dictGet_setFirst_ne d k' k _ (Ne.symm h), hg]
      rw [mapBoolField_eq_some _ k' v' h1, mapBoolField_eq_some _ k v h2]
      exact setFirst_comm d k k' (proxmox_to_ansible_bool v) (proxmox_to_ansible_bool v') h

/-- C9: the reverse mapper is idempotent — applying
`proxmox_to_ansible_interface_args` twice equals applying it once — and
every key other than the two boolean-converted fields `autostart` and
`bridge_vlan_ports` is left unchanged. -/
theorem C9_reverse_mapper_idempotent (r : PyDict) :
    proxmox_to_ansible_interface_args (proxmox_to_ansible_interface_args r)
      = proxmox_to_ansible_interface_args r
    ∧ ∀ k : String, k ≠ "autostart" → k ≠ "bridge_vlan_ports" →
        dictGet (proxmox_to_ansible_interface_args r) k = dictGet r k := by
  unfold proxmox_to_ansible_interface_args
  simp only [List.foldl]
  constructor
  · rw [mapBoolField_comm (mapBoolField r "autostart") "bridge_vlan_ports" "autostart"
      (by decide)]
    rw [mapBoolField_idem r "autostart"]
    rw [mapBoolField_idem (mapBoolField r "autostart") "bridge_vlan_ports"]
  · intro k h1 h2
    rw [mapBoolField_get_ne _ "bridge_vlan_ports" k (Ne.symm h2)]
    rw [mapBoolField_get_ne _ "autostart" k (Ne.symm h1)]

/-- Witness for C9: the idempotence and the untouched-key clause applied
to a concrete live record. -/
theorem C9_reverse_mapper_idempotent_witness :
    proxmox_to_ansible_interface_args (proxmox_to_ansible_interface_args
        [("iface", PyVal.str "vmbr0"), ("autostart", PyVal.int 1), ("cidr", PyVal.str "10.0.0.1/24")])
      = proxmox_to_ansible_interface_args
        [("iface", PyVal.str "vmbr0"), ("autostart", PyVal.int 1), ("cidr", PyVal.str "10.0.0.1/24")]
    ∧ dictGet (proxmox_to_ansible_interface_args
        [("iface", PyVal.str "vmbr0"), ("autostart", PyVal.int 1), ("cidr", PyVal.str "10.0.0.1/24")]) "cidr"
      = dictGet [("iface", PyVal.str "vmbr0"), ("autostart", PyVal.int 1), ("cidr", PyVal.str "10.0.0.1/24")] "cidr" :=
  ⟨(C9_reverse_mapper_idempotent _).1,
   (C9_reverse_mapper_idempotent _).2 "cidr" (by decide) (by decide)⟩

theorem findFirstDup_cons (x : String) (names seen : List String) :
    findFirstDup ((x :: names).map PyVal.str) (seen.map PyVal.str)
      = if x ∈ seen then some (PyVal.str x)
        else findFirstDup (names.map PyVal.str) ((x :: seen).map PyVal.str) := by
  have hany : ((seen.map PyVal.str).any (fun y => pyEq (PyVal.str x) y)) = decide (x ∈ seen) := by
    induction seen with
    | nil => rfl
    | cons a rest ih =>
      by_cases hxa : x = a
      · simp [hxa, pyEq]
      · simp only [List.map, List.any_cons, ih]
        have : pyEq (PyVal.str x) (PyVal.str a) = false := by
          simp [pyEq, hxa]
        simp [this, hxa]
  simp only [List.map, findFirstDup, hany]
  by_cases hx : x ∈ seen
  · simp [hx]
  · simp [hx]

theorem findFirstDup_none_iff (names : List String) :
    ∀ seen : List String,
      (findFirstDup (names.map PyVal.str) (seen.map PyVal.str) = Option.none
        ↔ names.Nodup ∧ ∀ x ∈ names, x ∉ seen) := by
  induction names with
  | nil => intro seen; simp [findFirstDup]
  | cons x rest ih =>
    intro seen
    rw [findFirstDup_cons]
    by_cases hx : x ∈ seen
    · rw [if_pos hx]
      constructor
      · intro habs; exact Option.noConfusion habs
      · rintro ⟨-, hall⟩
        exact absurd hx (hall x (List.mem_cons_self x rest))
    · rw [if_neg hx, ih (x :: seen)]
      constructor
      · rintro ⟨hnd, hall⟩
        have hxr : x ∉ rest := fun hmem => hall x hmem (List.mem_cons_self x seen)
        refine ⟨List.nodup_cons.mpr ⟨hxr, hnd⟩, ?_⟩
        intro y hy
        rcases List.mem_cons.mp hy with h1 | h1
        · exact h1 ▸ hx
        · exact fun hys => hall y h1 (List.mem_cons_of_mem x hys)
      · rintro ⟨hnd, hall⟩
        obtain ⟨hxr, hnd2⟩ := List.nodup_cons.mp hnd
        refine ⟨hnd2, ?_⟩
        intro y hy hmem
        rcases List.mem_cons.mp hmem with h1 | h1
        · exact hxr (h1 ▸ hy)
        · exact hall y (List.mem_cons_of_mem x hy) h1

theorem findFirstDup_clean_prefix (pre : List String) :
    ∀ (seen rest : List String), pre.Nodup → (∀ x ∈ pre, x ∉ seen) →
      findFirstDup ((pre ++ rest).map PyVal.str) (seen.map PyVal.str)
        = findFirstDup (rest.map PyVal.str) ((pre.reverse ++ seen).map PyVal.str) := by
  induction pre with
  | nil => intro seen rest _ _; simp
  | cons x pre' ih =>
    intro seen rest hnd hns
    have hx : x ∉ seen := hns x (List.mem_cons_self x pre')
    rw [List.cons_append, findFirstDup_cons x (pre' ++ rest) seen, if_neg hx]
    have hnd' : pre'.Nodup := (List.nodup_cons.mp hnd).2
    have hxs : ∀ y ∈ pre', y ∉ x :: seen := by
      intro y hy
      simp only [List.mem_cons, not_or]
      exact ⟨fun he => (List.nodup_cons.mp hnd).1 (he ▸ hy), fun hs => hns y (List.mem_cons_of_mem x hy) hs⟩
    rw [ih (x :: seen) rest hnd' hxs]
    have : pre'.reverse ++ (x :: seen) = (x :: pre').reverse ++ seen := by
      simp [List.reverse_cons, List.append_assoc]
    rw [this]

theorem findFirstDup_first_dup (pre : List String) (n : String) (post : List String)
    (hnd : pre.Nodup) (hmem : n ∈ pre) :
    findFirstDup ((pre ++ n :: post).map PyVal.str) [] = some (PyVal.str n) := by
  have h := findFirstDup_clean_prefix pre [] (n :: post) hnd (by simp)
  rw [show ([] : List PyVal) = (([] : List String).map PyVal.str) from rfl, h]
  rw [findFirstDup_cons n post (pre.reverse ++ [])]
  rw [if_pos (by simp [hmem])]

/-- C8: the duplicate checker succeeds silently exactly when all
declared names are distinct, and whenever the batch decomposes as a
duplicate-free prefix followed by a name already in that prefix (the
first duplicate in input order), it fails with the module error message
naming that name. -/
theorem C8_duplicate_checker (config : List PyDict) (names : List String)
    (h : config.mapM (fun nic => getItem nic "name") = .ok (names.map PyVal.str)) :
    (check_doublicates config = .ok Option.none ↔ names.Nodup)
    ∧ ∀ pre n post, names = pre ++ n :: post → pre.Nodup → n ∈ pre →
        check_doublicates config
          = .ok (some ("Interface " ++ n ++ " can only be present once in list")) := by
  have hc : check_doublicates config
      = (match findFirstDup (names.map PyVal.str) [] with
         | some iface =>
             .ok (some ("Interface " ++ pyStr iface ++ " can only be present once in list"))
         | Option.none => .ok Option.none) := by
    unfold check_doublicates
    rw [h, ok_bind]
    rfl
  constructor
  · rw [hc]
    constructor
    · intro he
      cases hff : findFirstDup (names.map PyVal.str) [] with
      | none =>
        have := (findFirstDup_none_iff names ([] : List String)).mp hff
        exact this.1
      | some iface =>
        rw [hff] at he
        exact absurd (Except.ok.inj he) (by simp)
    · intro hnd
      have : findFirstDup (names.map PyVal.str) (([] : List String).map PyVal.str)
          = Option.none :=
        (findFirstDup_none_iff names ([] : List String)).mpr ⟨hnd, by simp⟩
      rw [show ([] : List PyVal) = (([] : List String).map PyVal.str) from rfl, this]
  · intro pre n post heq hnd hmem
    rw [hc, heq, findFirstDup_first_dup pre n post hnd hmem]
    rfl

/-- Witness for C8: the checker applied to the two batches of the spec
scenario — a duplicated `vmbr0` fails naming `vmbr0`, distinct names
succeed silently. -/
theorem C8_duplicate_checker_witness :
    check_doublicates [[("name", PyVal.str "vmbr0")], [("name", PyVal.str "vmbr0")]]
      = .ok (some "Interface vmbr0 can only be present once in list")
    ∧ check_doublicates [[("name", PyVal.str "vmbr0")], [("name", PyVal.str "vmbr1")]]
      = .ok Option.none :=
  ⟨(C8_duplicate_checker [[("name", PyVal.str "vmbr0")], [("name", PyVal.str "vmbr0")]]
      ["vmbr0", "vmbr0"] rfl).2 ["vmbr0"] "vmbr0" [] rfl (by simp) (by simp),
   (C8_duplicate_checker [[("name", PyVal.str "vmbr0")], [("name", PyVal.str "vmbr1")]]
      ["vmbr0", "vmbr1"] rfl).1.mpr (by simp)⟩

theorem trPass_ok {v w : PyVal} (ht : trPass v = .ok w) : w = v :=
  (Except.ok.inj ht).symm

theorem trBoolStr_ok {v w : PyVal} (ht : trBoolStr v = .ok w) :
    w = .str (if pyTruthy v then "1" else "0") :=
  (Except.ok.inj ht).symm

theorem trBoolInt_ok {v w : PyVal} (ht : trBoolInt v = .ok w) :
    w = .int (if pyTruthy v then 1 else 0) :=
  (Except.ok.inj ht).symm

theorem trMtu_ok {v w : PyVal} (ht : trMtu v = .ok w) : w = v := by
  unfold trMtu at ht
  cases hp : pyIntOf v with
  | error e =>
    rw [hp, error_bind] at ht
    exact absurd ht (fun hc => Except.noConfusion hc)
  | ok n =>
    rw [hp, ok_bind] at ht
    split at ht
    · exact (Except.ok.inj ht).symm
    · exact absurd ht (fun hc => Except.noConfusion hc)

theorem trOvsTag_ok {v w : PyVal} (ht : trOvsTag v = .ok w) : w = v := by
  unfold trOvsTag at ht
  cases hp : pyIntOf v with
  | error e =>
    rw [hp, error_bind] at ht
    exact absurd ht (fun hc => Except.noConfusion hc)
  | ok n =>
    rw [hp, ok_bind] at ht
    split at ht
    · exact (Except.ok.inj ht).symm
    · exact absurd ht (fun hc => Except.noConfusion hc)

theorem trVlanId_ok {v w : PyVal} (ht : trVlanId v = .ok w) : w = v := by
  unfold trVlanId at ht
  cases hp : pyIntOf v with
  | error e =>
    rw [hp, error_bind] at ht
    exact absurd ht (fun hc => Except.noConfusion hc)
  | ok n =>
    rw [hp, ok_bind] at ht
    split at ht
    · exact (Except.ok.inj ht).symm
    · exact absurd ht (fun hc => Except.noConfusion hc)

theorem fieldSpecs_nonnull :
    ∀ s ∈ fieldSpecs, ∀ v w : PyVal, v ≠ PyVal.none → s.2.2 v = .ok w → w ≠ PyVal.none := by
  intro s hs
  unfold fieldSpecs at hs
  fin_cases hs <;> intro v w hv ht <;>
    first
    | (rw [trPass_ok ht]; exact hv)
    | (rw [trBoolStr_ok ht]; exact fun hc => PyVal.noConfusion hc)
    | (rw [trBoolInt_ok ht]; exact fun hc => PyVal.noConfusion hc)
    | (rw [trMtu_ok ht]; exact hv)
    | (rw [trOvsTag_ok ht]; exact hv)
    | (rw [trVlanId_ok ht]; exact hv)

theorem mapFold_keys (params : PyDict)
    (specs : List (String × String × (PyVal → Except PyErr PyVal))) :
    ∀ acc ret : PyDict,
      List.foldlM (mapStep params) acc specs = .ok ret →
      ret.map Prod.fst = acc.map Prod.fst ++ specs.filterMap (fun s =>
        match getItem params s.1 with
        | .ok v => if v = PyVal.none then Option.none else some s.2.1
        | .error _ => Option.none) := by
  induction specs with
  | nil =>
    intro acc ret h
    rw [List.foldlM_nil, pure_def] at h
    rw [← Except.ok.inj h]
    simp
  | cons s rest ih =>
    intro acc ret h
    rw [List.foldlM_cons] at h
    cases hg : getItem params s.1 with
    | error e =>
      have hms : mapStep params acc s = .error e := by
        unfold mapStep
        rw [hg]
        rfl
      rw [hms, error_bind] at h
      exact absurd h (fun hc => Except.noConfusion hc)
    | ok v =>
      by_cases hv : v = PyVal.none
      · have hms : mapStep params acc s = .ok acc := by
          unfold mapStep
          rw [hg, ok_bind, if_pos hv]
          rfl
        rw [hms, ok_bind] at h
        rw [ih acc ret h]
        simp [List.filterMap_cons, hg, hv]
      · cases ht : s.2.2 v with
        | error e =>
          have hms : mapStep params acc s = .error e := by
            unfold mapStep
            rw [hg, ok_bind, if_neg hv, ht]
            rfl
          rw [hms, error_bind] at h
          exact absurd h (fun hc => Except.noConfusion hc)
        | ok w =>
          have hms : mapStep params acc s = .ok (acc ++ [(s.2.1, w)]) := by
            unfold mapStep
            rw [hg, ok_bind, if_neg hv, ht]
            rfl
          rw [hms, ok_bind] at h
          rw [ih _ ret h]
          simp [List.filterMap_cons, hg, hv]

theorem mapFold_nonnull (params : PyDict)
    (specs : List (String × String × (PyVal → Except PyErr PyVal))) :
    ∀ acc ret : PyDict,
      (∀ s ∈ specs, ∀ v w : PyVal, v ≠ PyVal.none → s.2.2 v = .ok w → w ≠ PyVal.none) →
      (∀ kv ∈ acc, kv.2 ≠ PyVal.none) →
      List.foldlM (mapStep params) acc specs = .ok ret →
      ∀ kv ∈ ret, kv.2 ≠ PyVal.none := by
  induction specs with
  | nil =>
    intro acc ret _ hacc h
    rw [List.foldlM_nil, pure_def] at h
    rw [← Except.ok.inj h]
    exact hacc
  | cons s rest ih =>
    intro acc ret hrows hacc h
    rw [List.foldlM_cons] at h
    cases hg : getItem params s.1 with
    | error e =>
      have hms : mapStep params acc s = .error e := by
        unfold mapStep
        rw [hg]
        rfl
      rw [hms, error_bind] at h
      exact absurd h (fun hc => Except.noConfusion hc)
    | ok v =>
      by_cases hv : v = PyVal.none
      · have hms : mapStep params acc s = .ok acc := by
          unfold mapStep
          rw [hg, ok_bind, if_pos hv]
          rfl
        rw [hms, ok_bind] at h
        exact ih acc ret (fun t ht => hrows t (List.mem_cons_of_mem s ht)) hacc h
      · cases ht : s.2.2 v with
        | error e =>
          have hms : mapStep params acc s = .error e := by
            unfold mapStep
            rw [hg, ok_bind, if_neg hv, ht]
            rfl
          rw [hms, error_bind] at h
          exact absurd h (fun hc => Except.noConfusion hc)
        | ok w =>
          have hms : mapStep params acc s = .ok (acc ++ [(s.2.1, w)]) := by
            unfold mapStep
            rw [hg, ok_bind, if_neg hv, ht]
            rfl
          rw [hms, ok_bind] at h
          refine ih _ ret (fun t htm => hrows t (List.mem_cons_of_mem s htm)) ?_ h
          intro kv hkv
          rcases List.mem_append.mp hkv with h1 | h1
          · exact hacc kv h1
          · rw [List.mem_singleton.mp h1]
            exact hrows s (List.mem_cons_self s rest) v w hv ht

theorem mem_keys_of_dictGet (d : PyDict) (k : String) (v : PyVal) (h : dictGet d k = some v) :
    k ∈ d.map Prod.fst := by
  unfold dictGet at h
  obtain ⟨p, hp, hv2⟩ := Option.map_eq_some'.mp h
  have hmem := List.mem_of_find?_eq_some hp
  have hpk := List.find?_some hp
  have hk : p.1 = k := by simpa using hpk
  rw [← hk]
  exact List.mem_map_of_mem Prod.fst hmem

theorem mem_diffEntries (new old : PyDict) (k : String) (fd : FieldDiff) :
    (k, fd) ∈ diffEntries new old ↔
      ∃ v ov, dictGet new k = some v ∧ v ≠ PyVal.none ∧ dictGet old k = some ov ∧
        pyEq v ov = false ∧ fd = ⟨ov, v⟩ := by
  unfold diffEntries
  rw [List.mem_filterMap]
  constructor
  · rintro ⟨k', hk', hf⟩
    cases hg : dictGet new k' with
    | none =>
      simp only [hg] at hf
      exact Option.noConfusion hf
    | some v =>
      simp only [hg] at hf
      by_cases hv : v = PyVal.none
      · rw [if_pos hv] at hf
        exact Option.noConfusion hf
      · rw [if_neg hv] at hf
        cases ho : dictGet old k' with
        | none =>
          simp only [ho] at hf
          exact Option.noConfusion hf
        | some ov =>
          simp only [ho] at hf
          by_cases hpe : pyEq v ov = true
          · rw [if_pos hpe] at hf
            exact Option.noConfusion hf
          · rw [if_neg hpe] at hf
            obtain ⟨hk, hfd⟩ := Prod.mk.inj (Option.some.inj hf)
            subst hk
            exact ⟨v, ov, hg, hv, ho, Bool.eq_false_iff.mpr hpe, hfd.symm⟩
  · rintro ⟨v, ov, hg, hv, ho, hpe, rfl⟩
    refine ⟨k, mem_keys_of_dictGet new k v hg, ?_⟩
    simp only [hg, ho]
    rw [if_neg hv, if_neg (fun hc => by rw [hpe] at hc; exact Bool.noConfusion hc)]

theorem get_diff_single_nic_eq (new old new_n : PyDict)
    (hn : normalize_comments new = .ok new_n) :
    get_diff_single_nic new old
      = .ok (if (diffEntries new_n old).length > 0
             then some (diffEntries new_n old) else Option.none) := by
  unfold get_diff_single_nic
  rw [hn, ok_bind]
  dsimp only
  split <;> rfl

theorem diffLoop_cons_create (existing : PyKeyed PyDict) (nic : PyDict) (rest : List PyDict)
    (ret : PyKeyed Change) (name st : PyVal) (mapped : PyDict)
    (hname : getItem nic "name" = .ok name)
    (hmap : proxmox_map_interface_args nic = .ok mapped)
    (hstate : getItem nic "state" = .ok st)
    (hst : pyEq st (.str "absent") = false)
    (hnone : alistGet existing name = Option.none) :
    diffLoop existing (nic :: rest) ret
      = diffLoop existing rest (alistSet ret name (.create mapped)) := by
  simp only [diffLoop, hname, hmap, hstate, ok_bind, hst, hnone, Bool.false_eq_true,
    if_false, Option.isNone_none, if_true]

theorem diffLoop_cons_update (existing : PyKeyed PyDict) (nic : PyDict) (rest : List PyDict)
    (ret : PyKeyed Change) (name st : PyVal) (mapped cur : PyDict)
    (od : Option (List (String × FieldDiff)))
    (hname : getItem nic "name" = .ok name)
    (hmap : proxmox_map_interface_args nic = .ok mapped)
    (hstate : getItem nic "state" = .ok st)
    (hst : pyEq st (.str "absent") = false)
    (hcur : alistGet existing name = some cur)
    (hdiff : get_diff_single_nic nic cur = .ok od) :
    diffLoop existing (nic :: rest) ret
      = diffLoop existing rest (match od with
          | some fd => alistSet ret name (.update fd)
          | Option.none => ret) := by
  simp only [diffLoop, hname, hmap, hstate, ok_bind, hst, hcur, hdiff, Bool.false_eq_true,
    if_false, Option.isNone_some, Option.getD_some]
  cases od <;> rfl

/-- C3 amended: for a desired declaration with `state: present` whose
name is not among the current interfaces, the diff engine emits
`{before: "", after: FieldMapper(d)}`, where the mapped record carries
`comments` exactly as declared — no trailing newline is added on the
creation path; on the claim's scenario the result is therefore
`{vmbr0: {before: "", after: {iface: vmbr0, cidr: 192.168.0.1/24,
comments: "x"}}}`. -/
theorem C3_amended_creation_emission (current : List PyDict) (existing : PyKeyed PyDict)
    (nic : PyDict) (name : PyVal) (mapped : PyDict)
    (hex : buildExisting current [] = .ok existing)
    (hname : getItem nic "name" = .ok name)
    (hmap : proxmox_map_interface_args nic = .ok mapped)
    (hstate : getItem nic "state" = .ok (.str "present"))
    (hnone : alistGet existing name = Option.none) :
    get_config_diff current [nic] = .ok (some [(name, Change.create mapped)])
    ∧ get_config_diff []
        [declParams (.str "vmbr0") PyVal.none PyVal.none PyVal.none (.str "192.168.0.1/24")
          (.str "x") PyVal.none PyVal.none PyVal.none (.str "present")]
      = .ok (some [(PyVal.str "vmbr0",
          Change.create [("iface", PyVal.str "vmbr0"), ("cidr", PyVal.str "192.168.0.1/24"),
            ("comments", PyVal.str "x")])]) := by
  constructor
  · unfold get_config_diff
    rw [hex]
    rw [ok_bind]
    rw [diffLoop_cons_create existing nic [] [] name (.str "present") mapped hname hmap hstate
      rfl hnone]
    rfl
  · rfl

/-- Witness for C3: the general creation-emission theorem applied to the
claim's concrete scenario. -/
theorem C3_amended_creation_emission_witness :
    get_config_diff []
        [declParams (.str "vmbr0") PyVal.none PyVal.none PyVal.none (.str "192.168.0.1/24")
          (.str "x") PyVal.none PyVal.none PyVal.none (.str "present")]
      = .ok (some [(PyVal.str "vmbr0",
          Change.create [("iface", PyVal.str "vmbr0"), ("cidr", PyVal.str "192.168.0.1/24"),
            ("comments", PyVal.str "x")])]) :=
  (C3_amended_creation_emission [] []
    (declParams (.str "vmbr0") PyVal.none PyVal.none PyVal.none (.str "192.168.0.1/24")
      (.str "x") PyVal.none PyVal.none PyVal.none (.str "present"))
    (PyVal.str "vmbr0")
    [("iface", PyVal.str "vmbr0"), ("cidr", PyVal.str "192.168.0.1/24"),
      ("comments", PyVal.str "x")]
    rfl rfl rfl rfl rfl).1

/-- C2 amended: in the update path the field-level diff is computed
between the RAW declaration (with its `comments` normalized) and the
current record — not between `FieldMapper(d)` and the current record.
For every reported field: it is present and non-`None` in the normalized
declaration, exists in the current record, and its values differ, with
`{before: current value, after: declared value}`; fields absent from the
current record are never reported; the diff is `None` exactly when no
field differs; and in `get_config_diff` a change record for the name is
emitted exactly when that diff is non-`None`. -/
theorem C2_amended_raw_declaration_diff :
    (∀ new old new_n : PyDict, normalize_comments new = .ok new_n →
      (∀ r, get_diff_single_nic new old = .ok (some r) →
        r ≠ [] ∧ ∀ (k : String) (fd : FieldDiff),
          ((k, fd) ∈ r ↔ ∃ v ov, dictGet new_n k = some v ∧ v ≠ PyVal.none ∧
            dictGet old k = some ov ∧ pyEq v ov = false ∧ fd = ⟨ov, v⟩))
      ∧ (get_diff_single_nic new old = .ok Option.none ↔ diffEntries new_n old = []))
    ∧ (∀ (current : List PyDict) (existing : PyKeyed PyDict) (nic : PyDict) (name : PyVal)
        (mapped cur : PyDict) (od : Option (List (String × FieldDiff))),
        buildExisting current [] = .ok existing →
        getItem nic "name" = .ok name →
        proxmox_map_interface_args nic = .ok mapped →
        getItem nic "state" = .ok (.str "present") →
        alistGet existing name = some cur →
        get_diff_single_nic nic cur = .ok od →
        get_config_diff current [nic]
          = .ok (match od with
                 | some fd => some [(name, Change.update fd)]
                 | Option.none => Option.none)) := by
  constructor
  · intro new old new_n hn
    have he := get_diff_single_nic_eq new old new_n hn
    constructor
    · intro r hr
      rw [he] at hr
      have hval := Except.ok.inj hr
      by_cases hl : (diffEntries new_n old).length > 0
      · rw [if_pos hl] at hval
        have hre : diffEntries new_n old = r := Option.some.inj hval
        constructor
        · intro hnil
          rw [hnil] at hre
          rw [hre] at hl
          exact absurd hl (by simp)
        · intro k fd
          rw [← hre]
          exact mem_diffEntries new_n old k fd
      · rw [if_neg hl] at hval
        exact absurd hval (fun hc => Option.noConfusion hc)
    · rw [he]
      constructor
      · intro hok
        have hval := Except.ok.inj hok
        by_cases hl : (diffEntries new_n old).length > 0
        · rw [if_pos hl] at hval
          exact absurd hval (fun hc => Option.noConfusion hc)
        · exact List.eq_nil_of_length_eq_zero (Nat.eq_zero_of_not_pos hl)
      · intro hnil
        rw [hnil]
        simp
  · intro current existing nic name mapped cur od hex hname hmap hstate hcur hdiff
    unfold get_config_diff
    rw [hex, ok_bind]
    rw [diffLoop_cons_update existing nic [] [] name (.str "present") mapped cur od hname hmap
      hstate rfl hcur hdiff]
    cases od <;> rfl

/-- Witness for C2 amended: a declaration changing only `cidr` against a
live record produces exactly the `cidr` field diff, and the change
record is emitted for its name. -/
theorem C2_amended_raw_declaration_diff_witness :
    ([("cidr", FieldDiff.mk (PyVal.str "10.0.0.1/24") (PyVal.str "192.168.0.2/24"))]
      ≠ ([] : List (String × FieldDiff)))
    ∧ get_config_diff [[("iface", PyVal.str "vmbr0"), ("cidr", PyVal.str "10.0.0.1/24")]]
        [declParams (.str "vmbr0") PyVal.none PyVal.none PyVal.none (.str "192.168.0.2/24")
          PyVal.none PyVal.none PyVal.none PyVal.none (.str "present")]
      = .ok (some [(PyVal.str "vmbr0", Change.update
          [("cidr", FieldDiff.mk (PyVal.str "10.0.0.1/24") (PyVal.str "192.168.0.2/24"))])]) :=
  ⟨((C2_amended_raw_declaration_diff.1
      (declParams (.str "vmbr0") PyVal.none PyVal.none PyVal.none (.str "192.168.0.2/24")
        PyVal.none PyVal.none PyVal.none PyVal.none (.str "present"))
      [("iface", PyVal.str "vmbr0"), ("cidr", PyVal.str "10.0.0.1/24")]
      (declParams (.str "vmbr0") PyVal.none PyVal.none PyVal.none (.str "192.168.0.2/24")
        PyVal.none PyVal.none PyVal.none PyVal.none (.str "present"))
      rfl).1
      [("cidr", FieldDiff.mk (PyVal.str "10.0.0.1/24") (PyVal.str "192.168.0.2/24"))] rfl).1,
   C2_amended_raw_declaration_diff.2
     [[("iface", PyVal.str "vmbr0"), ("cidr", PyVal.str "10.0.0.1/24")]]
     [(PyVal.str "vmbr0", [("iface", PyVal.str "vmbr0"), ("cidr", PyVal.str "10.0.0.1/24")])]
     (declParams (.str "vmbr0") PyVal.none PyVal.none PyVal.none (.str "192.168.0.2/24")
       PyVal.none PyVal.none PyVal.none PyVal.none (.str "present"))
     (PyVal.str "vmbr0")
     [("iface", PyVal.str "vmbr0"), ("cidr", PyVal.str "192.168.0.2/24")]
     [("iface", PyVal.str "vmbr0"), ("cidr", PyVal.str "10.0.0.1/24")]
     (some [("cidr", FieldDiff.mk (PyVal.str "10.0.0.1/24") (PyVal.str "192.168.0.2/24"))])
     rfl rfl rfl rfl rfl rfl⟩

theorem diffLoop_all_match (existing : PyKeyed PyDict) :
    ∀ (desired : List PyDict) (ret : PyKeyed Change),
      (∀ nic ∈ desired, ∃ (name : PyVal) (mapped cur : PyDict),
        getItem nic "name" = .ok name ∧ proxmox_map_interface_args nic = .ok mapped ∧
        getItem nic "state" = .ok (.str "present") ∧ alistGet existing name = some cur ∧
        get_diff_single_nic nic cur = .ok Option.none) →
      diffLoop existing desired ret = .ok ret := by
  intro desired
  induction desired with
  | nil => intro ret _; rfl
  | cons nic rest ih =>
    intro ret hall
    obtain ⟨name, mapped, cur, hname, hmap, hstate, hcur, hdiff⟩ :=
      hall nic (List.mem_cons_self nic rest)
    rw [diffLoop_cons_update existing nic rest ret name (.str "present") mapped cur Option.none
      hname hmap hstate rfl hcur hdiff]
    exact ih ret (fun t ht => hall t (List.mem_cons_of_mem nic ht))

/-- C6: the diff engine signals "nothing to do" with `None` — when every
desired declaration is `present`, matches an existing interface and its
field-level diff is empty, the result is `None`; and whenever a mapping
is returned at all, it is non-empty. -/
theorem C6_none_iff_no_pending_change :
    (∀ (current desired : List PyDict) (existing : PyKeyed PyDict),
      buildExisting current [] = .ok existing →
      (∀ nic ∈ desired, ∃ (name : PyVal) (mapped cur : PyDict),
        getItem nic "name" = .ok name ∧ proxmox_map_interface_args nic = .ok mapped ∧
        getItem nic "state" = .ok (.str "present") ∧ alistGet existing name = some cur ∧
        get_diff_single_nic nic cur = .ok Option.none) →
      get_config_diff current desired = .ok Option.none)
    ∧ (∀ (current desired : List PyDict) (m : PyKeyed Change),
        get_config_diff current desired = .ok (some m) → m ≠ []) := by
  constructor
  · intro current desired existing hex hall
    unfold get_config_diff
    rw [hex, ok_bind, diffLoop_all_match existing desired [] hall, ok_bind]
    rfl
  · intro current desired m h
    unfold get_config_diff at h
    cases hex : buildExisting current [] with
    | error e =>
      rw [hex, error_bind] at h
      exact absurd h (fun hc => Except.noConfusion hc)
    | ok existing =>
      rw [hex, ok_bind] at h
      cases hloop : diffLoop existing desired [] with
      | error e =>
        rw [hloop, error_bind] at h
        exact absurd h (fun hc => Except.noConfusion hc)
      | ok ret =>
        rw [hloop, ok_bind] at h
        by_cases hl : ret.length > 0
        · rw [if_pos hl, pure_def] at h
          have hm : ret = m := Option.some.inj (Except.ok.inj h)
          intro hnil
          rw [hm, hnil] at hl
          exact absurd hl (by simp)
        · rw [if_neg hl, pure_def] at h
          exact absurd (Except.ok.inj h) (fun hc => Option.noConfusion hc)

/-- Witness for C6: a desired declaration already matching the live
record yields `None` (idempotence), and a returned mapping (here, a
creation) is non-empty. -/
theorem C6_none_iff_no_pending_change_witness :
    get_config_diff [[("iface", PyVal.str "vmbr0"), ("cidr", PyVal.str "10.0.0.1/24")]]
        [declParams (.str "vmbr0") PyVal.none PyVal.none PyVal.none (.str "10.0.0.1/24")
          PyVal.none PyVal.none PyVal.none PyVal.none (.str "present")]
      = .ok Option.none
    ∧ [(PyVal.str "vmbr0", Change.create [("iface", PyVal.str "vmbr0")])]
      ≠ ([] : PyKeyed Change) :=
  ⟨C6_none_iff_no_pending_change.1
      [[("iface", PyVal.str "vmbr0"), ("cidr", PyVal.str "10.0.0.1/24")]]
      [declParams (.str "vmbr0") PyVal.none PyVal.none PyVal.none (.str "10.0.0.1/24")
        PyVal.none PyVal.none PyVal.none PyVal.none (.str "present")]
      [(PyVal.str "vmbr0", [("iface", PyVal.str "vmbr0"), ("cidr", PyVal.str "10.0.0.1/24")])]
      rfl
      (fun nic hmem => by
        rcases List.mem_singleton.mp hmem with rfl
        exact ⟨PyVal.str "vmbr0", [("iface", PyVal.str "vmbr0"), ("cidr", PyVal.str "10.0.0.1/24")],
          [("iface", PyVal.str "vmbr0"), ("cidr", PyVal.str "10.0.0.1/24")],
          rfl, rfl, rfl, rfl, rfl⟩),
   C6_none_iff_no_pending_change.2 []
     [declParams (.str "vmbr0") PyVal.none PyVal.none PyVal.none PyVal.none PyVal.none
       PyVal.none PyVal.none PyVal.none (.str "present")]
     [(PyVal.str "vmbr0", Change.create [("iface", PyVal.str "vmbr0")])] rfl⟩

/-- C4 amended: in the field-level diff path a set `comments` string `s`
is normalized to `stripNL s ++ "\n"` — newlines are stripped from BOTH
ends (Python `strip('\n')`), not only trailing ones — before any
comparison; consequently, when the current record's `comments` equals
that normalized value, no `comments` entry appears in the diff. -/
theorem C4_amended_comments_normalization (new old : PyDict) (s : String)
    (h : getItem new "comments" = .ok (.str s)) :
    (normalize_comments new = .ok (dictSetFirst new "comments" (.str (stripNL s ++ "\n")))
      ∧ dictGet (dictSetFirst new "comments" (.str (stripNL s ++ "\n"))) "comments"
          = some (.str (stripNL s ++ "\n")))
    ∧ (dictGet old "comments" = some (.str (stripNL s ++ "\n")) →
      ∀ r, get_diff_single_nic new old = .ok (some r) →
        ∀ fd : FieldDiff, ("comments", fd) ∉ r) := by
  have hget : dictGet new "comments" = some (.str s) := by
    unfold getItem at h
    cases hd : dictGet new "comments" with
    | none =>
      rw [hd] at h
      exact absurd h (fun hc => Except.noConfusion hc)
    | some v =>
      simp only [hd] at h
      rw [← Except.ok.inj h]
  have hnorm : normalize_comments new
      = .ok (dictSetFirst new "comments" (.str (stripNL s ++ "\n"))) := by
    unfold normalize_comments
    rw [h]
    rfl
  have hgetn : dictGet (dictSetFirst new "comments" (.str (stripNL s ++ "\n"))) "comments"
      = some (.str (stripNL s ++ "\n")) := by
    rw [dictGet_setFirst_self, hget]
    rfl
  refine ⟨⟨hnorm, hgetn⟩, ?_⟩
  intro ho r hr fd hmem
  have he := get_diff_single_nic_eq new old _ hnorm
  rw [he] at hr
  have hval := Except.ok.inj hr
  by_cases hl : (diffEntries (dictSetFirst new "comments" (.str (stripNL s ++ "\n"))) old).length > 0
  · rw [if_pos hl] at hval
    rw [← Option.some.inj hval] at hmem
    obtain ⟨v, ov, hgv, hv, hov, hpe, -⟩ :=
      (mem_diffEntries _ old "comments" fd).mp hmem
    rw [hgetn] at hgv
    rw [ho] at hov
    rw [← Option.some.inj hgv, ← Option.some.inj hov] at hpe
    have : pyEq (.str (stripNL s ++ "\n")) (.str (stripNL s ++ "\n")) = true := by
      simp [pyEq]
    rw [this] at hpe
    exact Bool.noConfusion hpe
  · rw [if_neg hl] at hval
    exact Option.noConfusion hval

/-- Witness for C4: declared comments `"x\n\n"` normalize to `"x\n"`,
matching the live comments, so the only reported field of the diff is
`cidr` — no `comments` entry. -/
theorem C4_amended_comments_normalization_witness :
    ("comments", FieldDiff.mk (PyVal.str "x\n") (PyVal.str "x\n"))
      ∉ [("cidr", FieldDiff.mk (PyVal.str "10.0.0.1/24") (PyVal.str "192.168.0.2/24"))] :=
  (C4_amended_comments_normalization
    (declParams (.str "vmbr0") PyVal.none PyVal.none PyVal.none (.str "192.168.0.2/24")
      (.str "x\n\n") PyVal.none PyVal.none PyVal.none (.str "present"))
    [("iface", PyVal.str "vmbr0"), ("cidr", PyVal.str "10.0.0.1/24"),
      ("comments", PyVal.str "x\n")]
    "x\n\n" rfl).2 rfl
    [("cidr", FieldDiff.mk (PyVal.str "10.0.0.1/24") (PyVal.str "192.168.0.2/24"))] rfl
    (FieldDiff.mk (PyVal.str "x\n") (PyVal.str "x\n"))

/-- C7: the field mapper emits exactly the wire keys of the non-null
attributes and never a null value. The claim's example maps to exactly
`{iface: vmbr0, type: bridge, autostart: "1", mtu: 20000, vlan-id:
4000}`; `autostart` encodes to the strings `"1"`/`"0"` and
`bridge_vlan_ports` to the integers `1`/`0`; and for every successful
mapping the emitted keys are precisely `setKeys params` (the wire names
of the present, non-null source attributes, in source order), with no
`None` value ever emitted. -/
theorem C7_field_mapper_wire_record :
    proxmox_map_interface_args
        (mapperParams (.str "vmbr0") (.str "bridge") (.bool true) PyVal.none PyVal.none
          PyVal.none (.int 20000) PyVal.none (.int 4000))
      = .ok [("iface", PyVal.str "vmbr0"), ("type", PyVal.str "bridge"),
          ("autostart", PyVal.str "1"), ("mtu", PyVal.int 20000), ("vlan-id", PyVal.int 4000)]
    ∧ (∀ b c : Bool,
        proxmox_map_interface_args
            (mapperParams PyVal.none PyVal.none (.bool b) (.bool c) PyVal.none PyVal.none
              PyVal.none PyVal.none PyVal.none)
          = .ok [("autostart", PyVal.str (if b then "1" else "0")),
              ("bridge_vlan_ports", PyVal.int (if c then 1 else 0))])
    ∧ ∀ (params ret : PyDict), proxmox_map_interface_args params = .ok ret →
        ret.map Prod.fst = setKeys params ∧ ∀ kv ∈ ret, kv.2 ≠ PyVal.none := by
  refine ⟨rfl, ?_, ?_⟩
  · intro b c
    cases b <;> cases c <;> rfl
  · intro params ret h
    unfold proxmox_map_interface_args at h
    refine ⟨?_, mapFold_nonnull params fieldSpecs [] ret fieldSpecs_nonnull (by simp) h⟩
    have hk := mapFold_keys params fieldSpecs [] ret h
    simpa [setKeys] using hk

/-- Witness for C7: the key-projection clause applied to the example
record. -/
theorem C7_field_mapper_wire_record_witness :
    ([("iface", PyVal.str "vmbr0"), ("type", PyVal.str "bridge"), ("autostart", PyVal.str "1"),
      ("mtu", PyVal.int 20000), ("vlan-id", PyVal.int 4000)] : PyDict).map Prod.fst
      = setKeys (mapperParams (.str "vmbr0") (.str "bridge") (.bool true) PyVal.none PyVal.none
          PyVal.none (.int 20000) PyVal.none (.int 4000)) :=
  (C7_field_mapper_wire_record.2.2
    (mapperParams (.str "vmbr0") (.str "bridge") (.bool true) PyVal.none PyVal.none PyVal.none
      (.int 20000) PyVal.none (.int 4000))
    [("iface", PyVal.str "vmbr0"), ("type", PyVal.str "bridge"), ("autostart", PyVal.str "1"),
      ("mtu", PyVal.int 20000), ("vlan-id", PyVal.int 4000)] rfl).1
